import Mathlib

/-!
Verification development for the single-file course bot (`src/botcode.py`).

The Python source is shallowly embedded below.  Strings are modelled as
Lean `String`s / `List Char`; the character classes used by the Python
regexes (`\w`, `\s`, lower-casing, SQL `LIKE` case folding) are modelled
over ASCII, which covers every string the program manipulates in the
claims under study.  The SQLite table `posted_courses` is modelled as a
`List PostedRecord`; SQL queries are translated into list scans with the
same matching semantics (`=` is case-sensitive equality, `LIKE` is the
SQLite pattern match with `%`/`_` wildcards and ASCII case folding).
-/

/-- ASCII lower-casing, the model of Python `str.lower()` and of the ASCII
case folding SQLite applies to `LIKE` operands. -/
def toLowerAscii (c : Char) : Char :=
  if 'A' ≤ c ∧ c ≤ 'Z' then Char.ofNat (c.toNat + 32) else c

/-- Model of the Python whitespace class `\s` / `str.strip()` (ASCII part). -/
def isSpaceChar (c : Char) : Bool :=
  c = ' ' ∨ c = '\t' ∨ c = '\n' ∨ c = '\r' ∨ c = '\x0b' ∨ c = '\x0c'

/-- Model of the Python word class `\w` (ASCII part): letters, digits, underscore. -/
def isWordChar (c : Char) : Bool :=
  c.isAlphanum || c = '_'

/-- Case folding used by SQLite `LIKE`: two characters match iff they agree
up to ASCII case. -/
def charLikeEq (p c : Char) : Bool :=
  toLowerAscii p == toLowerAscii c

/-- SQLite `LIKE` pattern matching over character lists: `%` matches any
(possibly empty) sequence, `_` matches exactly one character, every other
pattern character matches case-insensitively (ASCII).  Structurally
recursive on the pattern: `%` tries every suffix of the subject. -/
def likeA : List Char → List Char → Bool
  | [], s => s.isEmpty
  | c :: ps, s =>
    if c = '%' then (s.tails).any (likeA ps)
    else
      match s with
      | [] => false
      | d :: s' => (if c = '_' then true else charLikeEq c d) && likeA ps s'

/-- SQLite `LIKE` on strings (pattern first). -/
def sqlLike (pat s : String) : Bool := likeA pat.data s.data

/-- Python's substring test `needle in hay` on character lists. -/
def listSub (n : List Char) (h : List Char) : Bool :=
  (h.tails).any (fun t => n.isPrefixOf t)

/-- Python's substring test `needle in hay` on strings. -/
def strIn (needle hay : String) : Bool := listSub needle.data hay.data

/-- Characters kept by URL normalization: everything before the first `?`
or `#`. -/
def keepQF (c : Char) : Bool := ¬(c = '?' ∨ c = '#')

/-- `re.sub(r'[?#].*$', '', url)`: strip the query string and fragment,
i.e. keep the characters before the first `?` or `#`
(botcode.py lines 85, 95, 140-141, 324). -/
def stripQF (s : String) : String :=
  String.mk (s.data.takeWhile keepQF)

/-- A row of the `posted_courses` table (botcode.py lines 59-68). -/
structure PostedRecord where
  course_title : String
  coupon_link : String
  udemy_url : Option String
  posted_at : Nat
  source : Option String
deriving DecidableEq

/-- The `LIKE` pattern `f'{normalized_coupon}%'` used by `mark_posted`
(line 147-148): `normalized_coupon` is `None` (printed `"None"`) when
`coupon_link` is falsy, else the query/fragment-stripped link. -/
def markPat (cl : String) : String :=
  (if cl.isEmpty then "None" else stripQF cl) ++ "%"

/-- The `coupon_link` value stored by `mark_posted`
(`normalized_coupon or coupon_link`, line 158): the stripped link unless
stripping produced a falsy value, in which case the raw link. -/
def storedLink (cl : String) : String :=
  if (stripQF cl).isEmpty then cl else stripQF cl

/-- The `udemy_url` value stored by `mark_posted`
(`normalized_udemy or udemy_url`, lines 141 and 158). -/
def storedUdemy : Option String → Option String
  | none => none
  | some u => some (if (stripQF u).isEmpty then u else stripQF u)

/-- The duplicate check run by `mark_posted` before inserting (lines 146-151):
`coupon_link = ? OR coupon_link LIKE '{normalized_coupon}%'`. -/
def markDupHit (cl : String) (r : PostedRecord) : Bool :=
  r.coupon_link == cl || sqlLike (markPat cl) r.coupon_link

/-- `CourseDatabase.mark_posted` (botcode.py lines 135-171): normalize the
URLs, re-check uniqueness of the coupon link, and insert a row only when no
existing row matches.  `now` models `int(time.time())`. -/
def mark_posted (db : List PostedRecord) (course_title cl : String)
    (uu src : Option String) (now : Nat) : List PostedRecord :=
  if db.any (markDupHit cl) then db
  else db ++ [⟨course_title, storedLink cl, storedUdemy uu, now, src⟩]

/-- Method 1 of `is_posted` (lines 83-90): hit when some row's
`coupon_link` equals the argument or `LIKE`-matches the stripped argument
extended with `%`. -/
def linkHit (db : List PostedRecord) (cl : String) : Bool :=
  db.any fun r => r.coupon_link == cl || sqlLike (stripQF cl ++ "%") r.coupon_link

/-- `re.search(r'/course/([^/?]+)', url)`: the first occurrence of
`/course/` followed by at least one character other than `/` or `?`; the
captured group is that maximal run (lines 97-99). -/
def findSlug : List Char → Option (List Char)
  | [] => none
  | c :: rest =>
    if List.isPrefixOf "/course/".data (c :: rest) then
      let slug := ((c :: rest).drop 8).takeWhile fun d => ¬(d = '/' ∨ d = '?')
      if slug.isEmpty then findSlug rest else some slug
    else findSlug rest

/-- Method 2 of `is_posted` (lines 92-104): when a Udemy URL is supplied and
contains a course slug, hit when some row's stored `udemy_url` matches
`LIKE '%{slug}%'` (a `NULL` stored URL never matches). -/
def slugHit (db : List PostedRecord) : Option String → Bool
  | none => false
  | some u =>
    if u.isEmpty then false
    else
      match findSlug (stripQF u).data with
      | none => false
      | some slug =>
        db.any fun r =>
          match r.udemy_url with
          | none => false
          | some su => likeA ('%' :: slug ++ ['%']) su.data

/-- `re.sub(r'[^\w\s]', '', title.lower().strip())` (lines 109, 116):
lower-case, strip surrounding whitespace, and drop every character that is
neither a word character nor whitespace. -/
def normTitle (t : String) : List Char :=
  ((((t.data.map toLowerAscii).dropWhile isSpaceChar).reverse.dropWhile
      isSpaceChar).reverse).filter fun c => isWordChar c || isSpaceChar c

/-- The title-similarity test of method 3 (lines 118-120): exact match of
the normalized forms, or containment when the contained form has length
over 20. -/
def titleSim (nt np : List Char) : Bool :=
  nt == np || (decide (20 < nt.length) && listSub nt np)
    || (decide (20 < np.length) && listSub np nt)

/-- Method 3 of `is_posted` (lines 106-122): when a non-empty title is
supplied and its normalized form is longer than 10 characters, compare it
against the normalized title of every stored row (skipping falsy stored
titles). -/
def titleHit (db : List PostedRecord) : Option String → Bool
  | none => false
  | some t =>
    if t.isEmpty then false
    else
      let nt := normTitle t
      if 10 < nt.length then
        db.any fun r => !r.course_title.isEmpty && titleSim nt (normTitle r.course_title)
      else false

/-- `CourseDatabase.is_posted` (botcode.py lines 75-133): the three
duplicate-detection methods in order; method 1 only runs for a truthy
coupon link. -/
def is_posted (db : List PostedRecord) (cl : String) (uu ct : Option String) : Bool :=
  (!cl.isEmpty && linkHit db cl) || slugHit db uu || titleHit db ct

/-- The title normalization in the claim's own words ("lower-casing and
stripping non-alphanumeric characters"), kept separate from the code's
`normTitle` so the two can be compared: the code additionally keeps
whitespace and underscores, and `normTitle` is the authoritative embedding
of line 109/116 of botcode.py. -/
def specNormTitle (t : String) : List Char :=
  (t.data.map toLowerAscii).filter fun c => c.isAlphanum

/-! ### The redirect resolver (`UdemyScraper.get_udemy_course_info`) -/

/-- An `<a>` element as the resolver sees it: only its `href` matters. -/
structure Anchor where
  href : String
deriving DecidableEq

/-- The data `get_udemy_course_info` reads from one fetched page: the final
URL after transport-level redirects (`response.url`), the page's anchors in
document order, and the `onclick` attributes of the button-like elements
scanned as a last resort (`<button>` elements first, then button-classed
`<a>` elements, as on line 578). -/
structure PageData where
  finalUrl : String
  anchors : List Anchor
  buttonOnclicks : List String

/-- The argument of `get_udemy_course_info`: a Python value that is either
a string or something else (`isinstance(coupon_link, str)`, line 530). -/
inductive LinkArg where
  | str (s : String)
  | nonStr
deriving DecidableEq

/-- Python `str.startswith`: prefix test on the character lists. -/
def startsW (pre s : String) : Bool := List.isPrefixOf pre.data s.data

/-- URL fix-up applied to a found Udemy href (lines 562-565, 570-573,
616-619). -/
def fixHref (h : String) : String :=
  if startsW "/" h then "https://www.udemy.com" ++ h
  else if !startsW "http" h then "https://" ++ h
  else h

/-- The configured source URL (botcode.py line 31). -/
def COUPONAMI_URL : String := "https://www.couponami.com/all"

/-- Fix-up of a relative `/go/` link (lines 602-607): prefixed with the
couponami origin (the discudemy branch is dead since `COUPONAMI_URL` does
not mention discudemy). -/
def goFix (g : String) : String :=
  if startsW "/" g then
    (if strIn "discudemy.com" COUPONAMI_URL then "https://www.discudemy.com"
     else "https://www.couponami.com") ++ g
  else g

/-- The loop over udemy-hosting anchors in the `/go/` branch (lines
557-575): both the coupon and the coupon-less arm return, so the first
anchor of the (filtered) list wins. -/
def goScan : List Anchor → Option String
  | [] => none
  | a :: rest =>
    if strIn "udemy.com" a.href && strIn "couponCode=" a.href then some (fixHref a.href)
    else if strIn "udemy.com" a.href then some (fixHref a.href)
    else goScan rest

/-- The loop over udemy-hosting anchors in the non-`/go/` branch
(lines 612-621). -/
def pageScan : List Anchor → Option String
  | [] => none
  | a :: rest =>
    if strIn "udemy.com" a.href then some (fixHref a.href) else pageScan rest

/-- The character class `[^\s'"]` of the onclick URL regex (line 583). -/
def isXChar (c : Char) : Bool := !(isSpaceChar c || c = '\'' || c = '"')

/-- `re.search(r'https?://[^\s\x27"]*udemy\.com[^\s\x27"]*', onclick)`
(line 583): the leftmost scheme occurrence whose following maximal run of
non-space, non-quote characters contains `udemy.com`; the match is that
whole run (the class run subsumes the greedy pre/post parts). -/
def findUdemyUrl : List Char → Option (List Char)
  | [] => none
  | c :: rest =>
    if (List.isPrefixOf "https://".data (c :: rest)
          || List.isPrefixOf "http://".data (c :: rest))
        && listSub "udemy.com".data ((c :: rest).takeWhile isXChar) then
      some ((c :: rest).takeWhile isXChar)
    else findUdemyUrl rest

/-- The button `onclick` last-resort loop (lines 578-586): for each
button-like element whose `onclick` mentions `udemy.com`, return the first
URL-shaped match; an element whose `onclick` mentions udemy.com but yields
no regex match falls through to the next element. -/
def scanButtons : List String → Option String
  | [] => none
  | o :: rest =>
    if strIn "udemy.com" o then
      match findUdemyUrl o.data with
      | some m => some (String.mk m)
      | none => scanButtons rest
    else scanButtons rest

/-- The `/go/` branch of the resolver (lines 537-586), given the fetched
page: final URL on the destination domain, else first udemy anchor, else
the onclick scan, else no result. -/
def goBranch (pg : PageData) : Option String :=
  if strIn "udemy.com" pg.finalUrl then some pg.finalUrl
  else
    match goScan (pg.anchors.filter fun a => strIn "udemy.com" a.href) with
    | some u => some u
    | none => scanButtons pg.buttonOnclicks

/-- The direct udemy-link scan of the non-`/go/` branch (lines 611-621). -/
def directScan (pg : PageData) : Option String :=
  pageScan (pg.anchors.filter fun a => strIn "udemy.com" a.href)

/-- `UdemyScraper.get_udemy_course_info` (botcode.py lines 523-626).
The function is made structurally recursive on an explicit fuel parameter;
the recursion-depth guard (`recursion_depth > 3`, line 526) limits every
call chain to at most five frames, so with the fuel fixed at 5 by
`getUdemyCourseInfo` the fuel-0 branch is unreachable
(`resolveCore_fuel_irrelevant`). -/
def resolveCore (env : String → PageData) : Nat → LinkArg → Nat → Option String
  | fuel, link, depth =>
    if 3 < depth then none
    else
      match link with
      | .nonStr => none
      | .str cl =>
        if cl.isEmpty then none
        else if strIn "/go/" cl then goBranch (env cl)
        else
          match (env cl).anchors.find? (fun a => strIn "/go/" a.href) with
          | some ga =>
            if ga.href.isEmpty then directScan (env cl)
            else
              match fuel with
              | 0 => none
              | f + 1 => resolveCore env f (.str (goFix ga.href)) (depth + 1)
          | none => directScan (env cl)

/-- The resolver as called by the program (`recursion_depth` defaults to 0
at the external call sites). -/
def getUdemyCourseInfo (env : String → PageData) (link : LinkArg)
    (depth : Nat) : Option String :=
  resolveCore env 5 link depth

/-- The largest `recursion_depth` argument occurring in the call tree of
the resolver (same branch structure and fuel as `resolveCore`). -/
def depthCore (env : String → PageData) : Nat → LinkArg → Nat → Nat
  | fuel, link, depth =>
    if 3 < depth then depth
    else
      match link with
      | .nonStr => depth
      | .str cl =>
        if cl.isEmpty then depth
        else if strIn "/go/" cl then depth
        else
          match (env cl).anchors.find? (fun a => strIn "/go/" a.href) with
          | some ga =>
            if ga.href.isEmpty then depth
            else
              match fuel with
              | 0 => depth
              | f + 1 => max depth (depthCore env f (.str (goFix ga.href)) (depth + 1))
          | none => depth

/-- Maximum recursion depth reached by `getUdemyCourseInfo`. -/
def resolveDepth (env : String → PageData) (link : LinkArg) (depth : Nat) : Nat :=
  depthCore env 5 link depth

/-- The number of outbound requests (`session.get`) the resolver performs
(one per call body that reaches a fetch, lines 541 and 590). -/
def requestCore (env : String → PageData) : Nat → LinkArg → Nat → Nat
  | fuel, link, depth =>
    if 3 < depth then 0
    else
      match link with
      | .nonStr => 0
      | .str cl =>
        if cl.isEmpty then 0
        else if strIn "/go/" cl then 1
        else
          match (env cl).anchors.find? (fun a => strIn "/go/" a.href) with
          | some ga =>
            if ga.href.isEmpty then 1
            else
              match fuel with
              | 0 => 1
              | f + 1 => 1 + requestCore env f (.str (goFix ga.href)) (depth + 1)
          | none => 1

/-- Outbound request count of `getUdemyCourseInfo`. -/
def requestCount (env : String → PageData) (link : LinkArg) (depth : Nat) : Nat :=
  requestCore env 5 link depth

/-- A landing page on which a coupon-less destination link precedes a
coupon-carrying one. -/
def mixedCouponPage : PageData :=
  ⟨"https://www.couponami.com/landing",
   [⟨"https://www.udemy.com/course/first/"⟩,
    ⟨"https://www.udemy.com/course/second/?couponCode=FREE"⟩],
   []⟩

/-! ### Failure semantics of `is_posted` (claim C8) -/

/-- The storage operations the `try:` block of `is_posted` performs, each
of which may raise (`Except.error`): the coupon-link existence query
(line 86), the slug `LIKE` query (line 101), and the select of all stored
titles (line 112). -/
structure StoreOps where
  linkQuery : String → String → Except Unit Bool
  slugQuery : List Char → Except Unit Bool
  titlesQuery : Except Unit (List String)

/-- Method 1 over fallible storage (lines 83-90). -/
def linkStep (ops : StoreOps) (cl : String) : Except Unit Bool :=
  if cl.isEmpty then .ok false else ops.linkQuery cl (stripQF cl ++ "%")

/-- Method 2 over fallible storage (lines 92-104). -/
def slugStep (ops : StoreOps) : Option String → Except Unit Bool
  | none => .ok false
  | some u =>
    if u.isEmpty then .ok false
    else
      match findSlug (stripQF u).data with
      | none => .ok false
      | some slug => ops.slugQuery slug

/-- Method 3 over fallible storage (lines 106-122). -/
def titleStep (ops : StoreOps) : Option String → Except Unit Bool
  | none => .ok false
  | some t =>
    if t.isEmpty then .ok false
    else
      if 10 < (normTitle t).length then
        match ops.titlesQuery with
        | .error e => .error e
        | .ok titles =>
          .ok (titles.any fun pt => !pt.isEmpty && titleSim (normTitle t) (normTitle pt))
      else .ok false

/-- The body of the `try:` block of `is_posted` (lines 78-124): the three
methods in order, short-circuiting on the first hit; an `Except.error` is
an exception escaping the block. -/
def is_postedE (ops : StoreOps) (cl : String) (uu ct : Option String) :
    Except Unit Bool :=
  match linkStep ops cl with
  | .error e => .error e
  | .ok true => .ok true
  | .ok false =>
    match slugStep ops uu with
    | .error e => .error e
    | .ok true => .ok true
    | .ok false => titleStep ops ct

/-- `is_posted` including its `except` handler (lines 125-127): any error
raised by the body yields `False`. -/
def is_postedCaught (ops : StoreOps) (cl : String) (uu ct : Option String) : Bool :=
  match is_postedE ops cl uu ct with
  | .ok b => b
  | .error _ => false

/-- The never-failing storage operations backed by an in-memory table. -/
def opsOf (db : List PostedRecord) : StoreOps :=
  ⟨fun cl pat => .ok (db.any fun r => r.coupon_link == cl || sqlLike pat r.coupon_link),
   fun slug => .ok (db.any fun r =>
     match r.udemy_url with
     | none => false
     | some su => likeA ('%' :: slug ++ ['%']) su.data),
   .ok (db.map fun r => r.course_title)⟩

/-! ### The notification formatter (`TelegramChannelPoster.format_course_message`) -/

/-- A scraped course as handed to the formatter: the `dict` keys used by
`format_course_message` and `process_courses` (absent key = `none`). -/
structure Course where
  title : Option String
  coupon_link : Option String
  udemy_url : Option String
  thumbnail : Option String
  source : Option String
  language : Option String
  publisher : Option String
  rate : Option String
  enroll : Option String
  price : Option String
deriving DecidableEq

/-- Python truthiness of an optional string: present and non-empty. -/
def pyTruthy : Option String → Bool
  | none => false
  | some s => !s.isEmpty

/-- The replacement `html.escape` performs on one character (with its
default `quote=True`). -/
def escChunk (c : Char) : List Char :=
  if c = '&' then "&amp;".data
  else if c = '<' then "&lt;".data
  else if c = '>' then "&gt;".data
  else if c = '"' then "&quot;".data
  else if c = '\'' then "&#x27;".data
  else [c]

/-- Python `html.escape` (used at lines 657, 670-676). -/
def htmlEscape (s : String) : String :=
  String.mk (s.data.flatMap escChunk)

/-- One optional detail line of the message (lines 669-676): emitted, with
its value escaped, only when the value is truthy. -/
def detailLine (label : String) (v : Option String) : String :=
  if pyTruthy v then label ++ htmlEscape (v.getD "") ++ "\n" else ""

/-- The URL placed in the message body (lines 680-683): the Udemy URL when
truthy, else the coupon link — in both cases unescaped. -/
def shownUrl (course : Course) : String :=
  if pyTruthy course.udemy_url then course.udemy_url.getD ""
  else course.coupon_link.getD ""

/-- `TelegramChannelPoster.format_course_message` (botcode.py lines
650-688): the successive `message +=` steps, written as one
concatenation. -/
def formatCourseMessage (course : Course) : String :=
  "🎓 <b>" ++ htmlEscape (course.title.getD "Free Udemy Course")
    ++ "</b>\n\n📋 <b>Course Details:</b>\n"
    ++ detailLine "🌐 <b>Language:</b> " course.language
    ++ detailLine "👤 <b>Publisher:</b> " course.publisher
    ++ detailLine "⭐ <b>Rate:</b> " course.rate
    ++ detailLine "👥 <b>Enroll:</b> " course.enroll
    ++ "\n"
    ++ "🔗 <b>Get Course:</b> " ++ shownUrl course ++ "\n"
    ++ "\n⏰ <i>Limited time offer! Enroll now before it expires.</i>\n"
    ++ "\n#DIU #Udemy #FreeCourse"

/-- Number of markup-opening `<` characters in a string. -/
def countLt (s : String) : Nat := s.data.count '<'

/-- A scraped course whose Udemy URL carries markup. -/
def rawUrlCourse : Course :=
  ⟨some "Python Course 101", some "https://www.couponami.com/go/a",
   some "https://u/<img src=x>", none, none, none, none, none, none, none⟩

/-! ### The posting loop of `UdemyCoursesBot.process_courses` (claim C7) -/

/-- Observable events of one pass: a publish attempt (`post_course`, with
its success flag) and a `mark_posted` invocation for a candidate. -/
inductive PassEvent where
  | publish : Course → Bool → PassEvent
  | record : Course → PassEvent
deriving DecidableEq

/-- The posting loop (botcode.py lines 817-859) as an event trace: the
candidates are visited in order; `exc c` models an exception in the
details-enrichment step for `c` (the only raising region of the per-course
`try:` block, which `continue`s to the next candidate); otherwise
`post_course` runs (`pub c` its boolean result) and `mark_posted` is
invoked exactly when it returned success. -/
def passTrace (pub exc : Course → Bool) : List Course → List PassEvent
  | [] => []
  | c :: rest =>
    if exc c then passTrace pub exc rest
    else if pub c then
      .publish c true :: .record c :: passTrace pub exc rest
    else .publish c false :: passTrace pub exc rest

/-- The Udemy URL resolved for the duplicate check (lines 786-795): the
resolver is consulted only for a truthy coupon link, and only a truthy
result is kept. -/
def resolvedUrl (res : Course → Option String) (c : Course) : Option String :=
  if (c.coupon_link.getD "").isEmpty then none
  else
    match res c with
    | none => none
    | some u => if u.isEmpty then none else some u

/-- The new-course filter of `process_courses` (lines 779-805), in input
order: each course is enriched with its resolved Udemy URL and kept when
`is_posted` with its coupon link, resolved URL and title reports it
unknown. -/
def processNew (db : List PostedRecord) (res : Course → Option String)
    (courses : List Course) : List Course :=
  courses.filterMap fun c =>
    let uu := resolvedUrl res c
    let c' := match uu with
      | none => c
      | some u => { c with udemy_url := some u }
    if is_posted db (c.coupon_link.getD "") uu (some (c.title.getD "")) then none
    else some c'

/-- The event trace of one whole pass over scraped `courses`. -/
def processTrace (db : List PostedRecord) (res : Course → Option String)
    (pub exc : Course → Bool) (courses : List Course) : List PassEvent :=
  passTrace pub exc (processNew db res courses)

/-- The publish events of a trace, in order. -/
def pubEvents : List PassEvent → List PassEvent :=
  List.filter fun e =>
    match e with
    | .publish _ _ => true
    | .record _ => false

/-- A concrete scraped course used by the C7 witness. -/
def cSample : Course :=
  ⟨some "Sample Course Title", some "https://www.couponami.com/go/s",
   none, none, none, none, none, none, none, none⟩

/-- The constant-result publishers used by the C7 witness. -/
def alwaysTrue : Course → Bool := fun _ => true

/-- See `alwaysTrue`. -/
def alwaysFalse : Course → Bool := fun _ => false


/-! ### Lemmas and claim theorems -/

/-! ### Lemmas about the string model -/

theorem isEmpty_data (s : String) : s.isEmpty = s.data.isEmpty := by
  rw [Bool.eq_iff_iff, String.isEmpty_iff, List.isEmpty_iff]
  exact ⟨fun h => by simp [h], fun h => String.ext (by simp [h])⟩

theorem likeA_percent (s : List Char) : likeA ['%'] s = true := by
  have h : likeA ['%'] s = (s.tails).any (likeA []) := rfl
  rw [h, List.any_eq_true]
  exact ⟨[], (List.mem_tails _ _).mpr List.nil_suffix, rfl⟩

theorem likeA_self_append (l r : List Char) : likeA (l ++ ['%']) (l ++ r) = true := by
  induction l generalizing r with
  | nil => simpa using likeA_percent r
  | cons c l ih =>
    by_cases hc : c = '%'
    · subst hc
      have hmem : l ++ r ∈ ('%' :: (l ++ r)).tails :=
        (List.mem_tails _ _).mpr ⟨['%'], rfl⟩
      have h : likeA ('%' :: (l ++ ['%'])) ('%' :: (l ++ r))
          = (('%' :: (l ++ r)).tails).any (likeA (l ++ ['%'])) := rfl
      rw [List.cons_append, List.cons_append, h, List.any_eq_true]
      exact ⟨l ++ r, hmem, ih r⟩
    · by_cases hu : c = '_' <;>
        simp [likeA, hc, hu, charLikeEq, ih r]

theorem takeWhile_append_stop {α} (p : α → Bool) (a : List α) (c : α)
    (q : List α) (hc : p c = false) :
    (a ++ c :: q).takeWhile p = a.takeWhile p := by
  induction a with
  | nil => simp [List.takeWhile_cons, hc]
  | cons x a ih => cases hx : p x <;> simp [List.takeWhile_cons, hx, ih]

theorem stripQF_data (s : String) : (stripQF s).data = s.data.takeWhile keepQF := rfl

theorem stripQF_append_qf (url : String) (c : Char) (q : List Char)
    (hc : c = '?' ∨ c = '#') :
    stripQF (url ++ String.mk (c :: q)) = stripQF url := by
  apply String.ext
  rw [stripQF_data, stripQF_data, String.data_append]
  exact takeWhile_append_stop keepQF url.data c q (by rcases hc with h | h <;> simp [keepQF, h])

/-- The stored (normalized-or-raw) link `LIKE`-matches the pattern
`stripQF cl ++ "%"` that `is_posted` builds from `cl`. -/
theorem storedLink_like (cl : String) :
    sqlLike (stripQF cl ++ "%") (storedLink cl) = true := by
  unfold storedLink sqlLike
  by_cases h : (stripQF cl).isEmpty
  · rw [if_pos h, String.data_append]
    have hd : (stripQF cl).data = [] := by
      rw [isEmpty_data] at h; exact List.isEmpty_iff.mp h
    rw [hd]
    simpa using likeA_percent cl.data
  · rw [if_neg h, String.data_append]
    simpa using likeA_self_append (stripQF cl).data []

/-- Any string `LIKE`-matches its own stripped form extended with `%`. -/
theorem self_like_stripped (cl : String) :
    sqlLike (stripQF cl ++ "%") cl = true := by
  unfold sqlLike
  rw [String.data_append]
  have hsplit : cl.data = (stripQF cl).data ++ cl.data.dropWhile keepQF := by
    rw [stripQF_data]; exact (List.takeWhile_append_dropWhile keepQF cl.data).symm
  conv_lhs => rw [hsplit]
  simpa using likeA_self_append (stripQF cl).data (cl.data.dropWhile keepQF)

/-- A record whose `coupon_link` is `storedLink cl` passes the duplicate
check `mark_posted` runs for `cl`. -/
theorem markDupHit_storedLink (cl : String) (r : PostedRecord)
    (h : r.coupon_link = storedLink cl) : markDupHit cl r = true := by
  unfold markDupHit markPat
  by_cases hcl : cl.isEmpty
  · have : storedLink cl = cl := by
      unfold storedLink
      have : (stripQF cl).isEmpty = true := by
        rw [isEmpty_data] at hcl ⊢
        rw [stripQF_data, List.isEmpty_iff.mp hcl]; rfl
      rw [if_pos this]
    simp [h, this]
  · rw [if_neg hcl, h, storedLink_like]
    simp

/-- C1: after one `mark_posted` call with a listing URL, `is_posted` returns
true for every variant of that URL that differs only by an appended query
string or fragment (a suffix starting with `?` or `#`), whatever the prior
state of the store. -/
theorem known_after_record_variant
    (db : List PostedRecord) (t : String) (uu src : Option String) (now : Nat)
    (url : String) (c : Char) (q : List Char) (hc : c = '?' ∨ c = '#') :
    is_posted (mark_posted db t url uu src now) (url ++ String.mk (c :: q))
      none none = true := by
  set variant := url ++ String.mk (c :: q) with hvar
  have hdata : variant.data = url.data ++ (c :: q) := by
    rw [hvar, String.data_append]
  have hne : variant.isEmpty = false := by
    rw [isEmpty_data, hdata]; simp
  have hstrip : stripQF variant = stripQF url := stripQF_append_qf url c q hc
  have hlink : linkHit (mark_posted db t url uu src now) variant = true := by
    unfold linkHit
    rw [List.any_eq_true]
    by_cases hins : db.any (markDupHit url)
    · obtain ⟨r, hr, hhit⟩ := List.any_eq_true.mp hins
      unfold mark_posted
      rw [if_pos hins]
      refine ⟨r, hr, Bool.or_eq_true_iff.mpr (Or.inr ?_)⟩
      rw [hstrip]
      by_cases hu : url.isEmpty
      · have hud : url.data = [] := by
          rw [isEmpty_data] at hu; exact List.isEmpty_iff.mp hu
        have hd : (stripQF url ++ "%").data = ['%'] := by
          rw [String.data_append, stripQF_data, hud]
          rfl
        unfold sqlLike; rw [hd]; exact likeA_percent _
      · unfold markDupHit at hhit
        rcases Bool.or_eq_true_iff.mp hhit with h1 | h2
        · rw [eq_of_beq h1]; exact self_like_stripped url
        · unfold markPat at h2; rw [if_neg hu] at h2; exact h2
    · unfold mark_posted
      rw [if_neg hins]
      refine ⟨⟨t, storedLink url, storedUdemy uu, now, src⟩, by simp,
        Bool.or_eq_true_iff.mpr (Or.inr ?_)⟩
      rw [hstrip]
      exact storedLink_like url
  unfold is_posted
  rw [hne, hlink]
  rfl

/-- Witness for C1: the spec's end-to-end scenario B — after recording
`https://site/go/abc123`, the variant `https://site/go/abc123?ref=2` is
reported known. -/
theorem known_after_record_variant_witness :
    is_posted (mark_posted [] "Intro to X" "https://site/go/abc123" none none 0)
      ("https://site/go/abc123" ++ String.mk ('?' :: "ref=2".data)) none none = true :=
  known_after_record_variant [] "Intro to X" none none 0 "https://site/go/abc123"
    '?' "ref=2".data (Or.inl rfl)

/-- C2: `mark_posted` is idempotent on the listing URL — a repeated call
with the same `coupon_link` (any title/metadata) is a no-op, and from an
empty store one call leaves exactly one record matching the normalized
link's duplicate check. -/
theorem mark_posted_idempotent
    (db : List PostedRecord) (t t' cl : String) (u u' s s' : Option String)
    (n n' : Nat) :
    mark_posted (mark_posted db t cl u s n) t' cl u' s' n' = mark_posted db t cl u s n ∧
    ((mark_posted [] t cl u s n).filter (markDupHit cl)).length = 1 := by
  have hnew : markDupHit cl ⟨t, storedLink cl, storedUdemy u, n, s⟩ = true :=
    markDupHit_storedLink cl _ rfl
  constructor
  · by_cases hins : db.any (markDupHit cl)
    · unfold mark_posted; rw [if_pos hins, if_pos hins]
    · have hcond : (db ++ [(⟨t, storedLink cl, storedUdemy u, n, s⟩ : PostedRecord)]).any
          (markDupHit cl) = true := by
        rw [List.any_append]; simp [hnew]
      unfold mark_posted
      rw [if_neg hins, if_pos hcond]
  · unfold mark_posted
    rw [if_neg (by simp)]
    simp [hnew]

theorem listSub_length_le {n h : List Char} (hs : listSub n h = true) :
    n.length ≤ h.length := by
  unfold listSub at hs
  obtain ⟨t, ht, hp⟩ := List.any_eq_true.mp hs
  exact le_trans (List.isPrefixOf_iff_prefix.mp hp).length_le
    ((List.mem_tails _ _).mp ht).length_le

theorem normTitle_of_empty (t : String) (he : t.isEmpty = true) : normTitle t = [] := by
  have hd : t.data = [] := by rw [isEmpty_data] at he; exact List.isEmpty_iff.mp he
  simp [normTitle, hd]

/-- Counterexample to C4 as stated: the titles `t1 =
"abcdefghijklmnopqrstuvwxy"` (25 characters) and `t2 = "abcde"` satisfy the
claim's hypothesis — after lower-casing and stripping non-alphanumeric
characters one is a substring of the other and the longer form exceeds 20
characters — yet after recording `t1`, `is_posted` with title `t2` returns
false: the code only runs the fuzzy-title comparison when the *queried*
normalized title is longer than 10 characters, and its containment clauses
require the contained (shorter) normalized form, not the longer one, to
exceed 20 characters. -/
theorem title_fuzzy_counterexample :
    listSub (specNormTitle "abcde") (specNormTitle "abcdefghijklmnopqrstuvwxy") = true ∧
    20 < (specNormTitle "abcdefghijklmnopqrstuvwxy").length ∧
    is_posted
      (mark_posted [] "abcdefghijklmnopqrstuvwxy" "https://www.couponami.com/x"
        none none 0)
      "" none (some "abcde") = false :=
  ⟨by decide, by decide, by decide⟩

/-- C4 (amended): for titles `t1`, `t2` such that, under the code's
normalization (lower-case, strip surrounding whitespace, drop characters
that are neither word characters nor whitespace), one normalized form is a
substring of the other and the contained form exceeds 20 characters:
after `mark_posted` of `t1` into an empty store, `is_posted` with title
`t2` returns true. -/
theorem title_fuzzy_match
    (t1 t2 link : String) (uu src : Option String) (now : Nat)
    (h : (listSub (normTitle t1) (normTitle t2) = true ∧ 20 < (normTitle t1).length)
       ∨ (listSub (normTitle t2) (normTitle t1) = true ∧ 20 < (normTitle t2).length)) :
    is_posted (mark_posted [] t1 link uu src now) "" none (some t2) = true := by
  have hlen : 20 < (normTitle t1).length ∧ 20 < (normTitle t2).length := by
    rcases h with ⟨hsub, hl⟩ | ⟨hsub, hl⟩
    · exact ⟨hl, lt_of_lt_of_le hl (listSub_length_le hsub)⟩
    · exact ⟨lt_of_lt_of_le hl (listSub_length_le hsub), hl⟩
  have ht1 : t1.isEmpty = false := by
    cases he : t1.isEmpty
    · rfl
    · exact absurd hlen.1 (by rw [normTitle_of_empty t1 he]; decide)
  have ht2 : t2.isEmpty = false := by
    cases he : t2.isEmpty
    · rfl
    · exact absurd hlen.2 (by rw [normTitle_of_empty t2 he]; decide)
  have hsim : titleSim (normTitle t2) (normTitle t1) = true := by
    rcases h with ⟨hsub, hl⟩ | ⟨hsub, hl⟩ <;> simp [titleSim, hsub, hl]
  have hdb : mark_posted [] t1 link uu src now
      = [⟨t1, storedLink link, storedUdemy uu, now, src⟩] := by
    unfold mark_posted
    rw [if_neg (by simp)]
    rfl
  have h10 : 10 < (normTitle t2).length := by omega
  rw [hdb]
  unfold is_posted
  have hth : titleHit [⟨t1, storedLink link, storedUdemy uu, now, src⟩] (some t2)
      = true := by
    simp only [titleHit, ht2]
    simp [h10, ht1, hsim]
  rw [hth]
  simp

theorem listSub_append_left (n p h : List Char) (hs : listSub n h = true) :
    listSub n (p ++ h) = true := by
  unfold listSub at hs ⊢
  obtain ⟨t, ht, hp⟩ := List.any_eq_true.mp hs
  exact List.any_eq_true.mpr
    ⟨t, (List.mem_tails _ _).mpr (((List.mem_tails _ _).mp ht).trans ⟨p, rfl⟩), hp⟩

theorem strIn_append_left (n p h : String) (hs : strIn n h = true) :
    strIn n (p ++ h) = true := by
  unfold strIn at hs ⊢
  rw [String.data_append]
  exact listSub_append_left _ _ _ hs

theorem isEmpty_append_right (p h : String) (hh : h.isEmpty = false) :
    (p ++ h).isEmpty = false := by
  rw [isEmpty_data] at hh
  rw [isEmpty_data, String.data_append]
  rcases hd : h.data with _ | ⟨c, t⟩
  · rw [hd] at hh; simp at hh
  · simp [hd]

/-- `goFix` preserves containment of `/go/` and non-emptiness. -/
theorem goFix_go (g : String) (hg : strIn "/go/" g = true) :
    strIn "/go/" (goFix g) = true := by
  unfold goFix
  by_cases hs : startsW "/" g
  · rw [if_pos hs]; exact strIn_append_left _ _ _ hg
  · rw [if_neg hs]; exact hg

theorem goFix_ne (g : String) (hg : g.isEmpty = false) :
    (goFix g).isEmpty = false := by
  unfold goFix
  by_cases hs : startsW "/" g
  · rw [if_pos hs]; exact isEmpty_append_right _ _ hg
  · rw [if_neg hs]; exact hg

theorem resolveCore_succ (env : String → PageData) (f : Nat) (link : LinkArg)
    (depth : Nat) :
    resolveCore env (f + 1) link depth =
      (if 3 < depth then none
       else
        match link with
        | .nonStr => none
        | .str cl =>
          if cl.isEmpty then none
          else if strIn "/go/" cl then goBranch (env cl)
          else
            match (env cl).anchors.find? (fun a => strIn "/go/" a.href) with
            | some ga =>
              if ga.href.isEmpty then directScan (env cl)
              else resolveCore env f (.str (goFix ga.href)) (depth + 1)
            | none => directScan (env cl)) := by
  rw [resolveCore.eq_def]

theorem resolveCore_zero (env : String → PageData) (link : LinkArg) (depth : Nat) :
    resolveCore env 0 link depth =
      (if 3 < depth then none
       else
        match link with
        | .nonStr => none
        | .str cl =>
          if cl.isEmpty then none
          else if strIn "/go/" cl then goBranch (env cl)
          else
            match (env cl).anchors.find? (fun a => strIn "/go/" a.href) with
            | some ga =>
              if ga.href.isEmpty then directScan (env cl)
              else none
            | none => directScan (env cl)) := by
  rw [resolveCore.eq_def]

/-- The fuel parameter of `resolveCore` is inert: any fuel at least
`4 - depth` (in particular the fixed fuel 5) yields the same result, so
the fuel-0 branch is unreachable and `getUdemyCourseInfo` computes the
Python function. -/
theorem resolveCore_fuel_irrelevant (env : String → PageData) :
    ∀ f g link depth, 4 - depth ≤ f → 4 - depth ≤ g →
      resolveCore env f link depth = resolveCore env g link depth := by
  intro f
  induction f with
  | zero =>
    intro g link depth hf hg
    have hd : 3 < depth := by omega
    cases g with
    | zero => rfl
    | succ g => rw [resolveCore_zero, resolveCore_succ, if_pos hd, if_pos hd]
  | succ f ih =>
    intro g link depth hf hg
    by_cases hd : 3 < depth
    · cases g with
      | zero => rw [resolveCore_zero, resolveCore_succ, if_pos hd, if_pos hd]
      | succ g => rw [resolveCore_succ, resolveCore_succ, if_pos hd, if_pos hd]
    · obtain ⟨g', rfl⟩ : ∃ g', g = g' + 1 := ⟨g - 1, by omega⟩
      rw [resolveCore_succ, resolveCore_succ, if_neg hd, if_neg hd]
      cases link with
      | nonStr => rfl
      | str cl =>
        show (if cl.isEmpty then none else _) = (if cl.isEmpty then none else _)
        by_cases hcl : cl.isEmpty
        · rw [if_pos hcl, if_pos hcl]
        · rw [if_neg hcl, if_neg hcl]
          by_cases hgo : strIn "/go/" cl
          · rw [if_pos hgo, if_pos hgo]
          · rw [if_neg hgo, if_neg hgo]
            cases hfind : (env cl).anchors.find? (fun a => strIn "/go/" a.href) with
            | none => rfl
            | some ga =>
              show (if ga.href.isEmpty then _ else _) = (if ga.href.isEmpty then _ else _)
              by_cases hga : ga.href.isEmpty
              · rw [if_pos hga, if_pos hga]
              · rw [if_neg hga, if_neg hga]
                exact ih g' _ (depth + 1) (by omega) (by omega)

theorem depthCore_succ (env : String → PageData) (f : Nat) (link : LinkArg)
    (depth : Nat) :
    depthCore env (f + 1) link depth =
      (if 3 < depth then depth
       else
        match link with
        | .nonStr => depth
        | .str cl =>
          if cl.isEmpty then depth
          else if strIn "/go/" cl then depth
          else
            match (env cl).anchors.find? (fun a => strIn "/go/" a.href) with
            | some ga =>
              if ga.href.isEmpty then depth
              else max depth (depthCore env f (.str (goFix ga.href)) (depth + 1))
            | none => depth) := by
  rw [depthCore.eq_def]

theorem requestCore_succ (env : String → PageData) (f : Nat) (link : LinkArg)
    (depth : Nat) :
    requestCore env (f + 1) link depth =
      (if 3 < depth then 0
       else
        match link with
        | .nonStr => 0
        | .str cl =>
          if cl.isEmpty then 0
          else if strIn "/go/" cl then 1
          else
            match (env cl).anchors.find? (fun a => strIn "/go/" a.href) with
            | some ga =>
              if ga.href.isEmpty then 1
              else 1 + requestCore env f (.str (goFix ga.href)) (depth + 1)
            | none => 1) := by
  rw [requestCore.eq_def]

/-- C5: the resolver always terminates within its depth bound: a call whose
`recursion_depth` exceeds 3 immediately returns the empty result, and from
the program's entry depth 0 the recursion depth never exceeds 3 — for every
environment, including pathological pages that always expose a further
indirection link. -/
theorem resolver_depth_bounded :
    (∀ (env : String → PageData) (link : LinkArg) (depth : Nat), 3 < depth →
        getUdemyCourseInfo env link depth = none) ∧
    ∀ (env : String → PageData) (link : LinkArg), resolveDepth env link 0 ≤ 3 := by
  constructor
  · intro env link depth hd
    unfold getUdemyCourseInfo
    rw [resolveCore_succ, if_pos hd]
  · intro env link
    unfold resolveDepth
    rw [depthCore_succ, if_neg (by omega)]
    cases link with
    | nonStr => exact Nat.zero_le 3
    | str cl =>
      by_cases hcl : cl.isEmpty
      · simp [hcl]
      · by_cases hgo : strIn "/go/" cl
        · simp [hcl, hgo]
        · cases hfind : (env cl).anchors.find? (fun a => strIn "/go/" a.href) with
          | none => simp [hcl, hgo, hfind]
          | some ga =>
            by_cases hga : ga.href.isEmpty
            · simp [hcl, hgo, hfind, hga]
            · have hga' : strIn "/go/" ga.href = true := by
                simpa using List.find?_some hfind
              have hinner : depthCore env 4 (.str (goFix ga.href)) 1 = 1 := by
                rw [depthCore_succ, if_neg (by omega)]
                have hne : (goFix ga.href).isEmpty = false :=
                  goFix_ne _ (by simpa using hga)
                simp [hne, goFix_go _ hga']
              simp [hcl, hgo, hfind, hga, hinner]
  
/-- Witness for C5: at depth 4 the resolver returns the empty result, and
from depth 0 the reached depth is bounded, on a concrete environment. -/
theorem resolver_depth_bounded_witness :
    getUdemyCourseInfo (fun _ => ⟨"", [], []⟩) (.str "https://www.couponami.com/x") 4
        = none ∧
    resolveDepth (fun _ => ⟨"", [], []⟩) (.str "https://www.couponami.com/x") 0 ≤ 3 :=
  ⟨resolver_depth_bounded.1 (fun _ => ⟨"", [], []⟩) _ 4 (by decide),
   resolver_depth_bounded.2 (fun _ => ⟨"", [], []⟩) _⟩

/-- C10: at every recursion depth, the resolver called with a non-string
argument or with the empty string returns the empty result and performs no
outbound request (the guards at lines 526-531 run before any fetch). -/
theorem resolver_rejects_empty_input (env : String → PageData) (depth : Nat) :
    getUdemyCourseInfo env .nonStr depth = none ∧
    requestCount env .nonStr depth = 0 ∧
    getUdemyCourseInfo env (.str "") depth = none ∧
    requestCount env (.str "") depth = 0 := by
  have he : ("" : String).isEmpty = true := rfl
  unfold getUdemyCourseInfo requestCount
  rw [resolveCore_succ, resolveCore_succ, requestCore_succ, requestCore_succ]
  by_cases hd : 3 < depth <;> simp [hd, he]

/-- Counterexample to C6 as stated: the landing page holds a
destination-domain link carrying `couponCode=`, yet the resolver returns
the coupon-less destination link that appears earlier on the page — the
loop at lines 557-575 returns on the *first* udemy anchor, so the coupon
preference never looks past it. -/
theorem coupon_preference_counterexample :
    (∃ a ∈ mixedCouponPage.anchors,
        strIn "udemy.com" a.href = true ∧ strIn "couponCode=" a.href = true) ∧
    getUdemyCourseInfo (fun _ => mixedCouponPage)
        (.str "https://www.couponami.com/go/abc") 0
      = some "https://www.udemy.com/course/first/" ∧
    strIn "couponCode=" "https://www.udemy.com/course/first/" = false :=
  ⟨⟨⟨"https://www.udemy.com/course/second/?couponCode=FREE"⟩, by decide, by decide,
      by decide⟩,
   by decide, by decide⟩

/-- C6 (amended): the resolver returns the fixed-up href of the *first*
destination-domain link on the landing page; in particular, when that
first link carries the coupon-code parameter, the coupon-carrying link is
returned.  (A coupon link preceded by a coupon-less destination link is
not preferred — see `coupon_preference_counterexample`.) -/
theorem first_udemy_link_returned
    (env : String → PageData) (cl : String) (a : Anchor) (rest : List Anchor)
    (hcl : cl.isEmpty = false) (hgo : strIn "/go/" cl = true)
    (hfu : strIn "udemy.com" (env cl).finalUrl = false)
    (hfilter : (env cl).anchors.filter (fun x => strIn "udemy.com" x.href)
        = a :: rest) :
    getUdemyCourseInfo env (.str cl) 0 = some (fixHref a.href) := by
  have ha : strIn "udemy.com" a.href = true := by
    have hmem : a ∈ (env cl).anchors.filter (fun x => strIn "udemy.com" x.href) := by
      rw [hfilter]; exact List.mem_cons_self _ _
    exact (List.mem_filter.mp hmem).2
  unfold getUdemyCourseInfo
  rw [resolveCore_succ, if_neg (by omega)]
  show (if cl.isEmpty then none else if strIn "/go/" cl then goBranch (env cl) else _)
      = some (fixHref a.href)
  rw [if_neg (by simp [hcl]), if_pos hgo]
  unfold goBranch
  rw [if_neg (by simp [hfu]), hfilter]
  by_cases hc : strIn "couponCode=" a.href <;> simp [goScan, ha, hc]

/-- Witness for C6 (amended): on a page whose first destination-domain
link carries the coupon parameter, that exact link is returned. -/
theorem first_udemy_link_returned_witness :
    getUdemyCourseInfo
        (fun _ => ⟨"https://www.couponami.com/landing",
          [⟨"https://www.udemy.com/course/second/?couponCode=FREE"⟩], []⟩)
        (.str "https://www.couponami.com/go/abc") 0
      = some (fixHref "https://www.udemy.com/course/second/?couponCode=FREE") :=
  first_udemy_link_returned
    (fun _ => ⟨"https://www.couponami.com/landing",
      [⟨"https://www.udemy.com/course/second/?couponCode=FREE"⟩], []⟩)
    "https://www.couponami.com/go/abc"
    ⟨"https://www.udemy.com/course/second/?couponCode=FREE"⟩ []
    (by decide) (by decide) (by decide) (by decide)

theorem linkStep_opsOf (db : List PostedRecord) (cl : String) :
    linkStep (opsOf db) cl = .ok (!cl.isEmpty && linkHit db cl) := by
  unfold linkStep opsOf linkHit
  by_cases hcl : cl.isEmpty <;> simp [hcl]

theorem slugStep_opsOf (db : List PostedRecord) (uu : Option String) :
    slugStep (opsOf db) uu = .ok (slugHit db uu) := by
  rcases uu with _ | u
  · rfl
  · unfold slugStep slugHit opsOf
    by_cases hu : u.isEmpty
    · simp [hu]
    · cases hf : findSlug (stripQF u).data <;> simp [hu, hf]

theorem any_map_title (db : List PostedRecord) (p : String → Bool) :
    (db.map fun r => r.course_title).any p = db.any fun r => p r.course_title := by
  induction db with
  | nil => rfl
  | cons r rest ih => simp [ih]

theorem titleStep_opsOf (db : List PostedRecord) (ct : Option String) :
    titleStep (opsOf db) ct = .ok (titleHit db ct) := by
  rcases ct with _ | t
  · rfl
  · unfold titleStep titleHit opsOf
    by_cases ht : t.isEmpty
    · simp [ht]
    · by_cases h10 : 10 < (normTitle t).length <;>
        simp [ht, h10, any_map_title]

/-- C8: any storage error inside `is_posted` makes it return false (the
listing is treated as not known) rather than propagate — and over a
non-failing store the caught function coincides with the pure
`is_posted`, so the handler changes nothing in the error-free case. -/
theorem is_posted_fail_open :
    (∀ (ops : StoreOps) (cl : String) (uu ct : Option String) (e : Unit),
        is_postedE ops cl uu ct = .error e → is_postedCaught ops cl uu ct = false) ∧
    ∀ (db : List PostedRecord) (cl : String) (uu ct : Option String),
      is_postedCaught (opsOf db) cl uu ct = is_posted db cl uu ct := by
  constructor
  · intro ops cl uu ct e he
    unfold is_postedCaught
    rw [he]
  · intro db cl uu ct
    unfold is_postedCaught is_postedE
    rw [linkStep_opsOf, slugStep_opsOf, titleStep_opsOf]
    unfold is_posted
    cases h1 : (!cl.isEmpty && linkHit db cl) <;>
      cases h2 : slugHit db uu <;>
      cases h3 : titleHit db ct <;>
      simp [h1, h2, h3]

/-- Witness for C8: with storage that always raises, `is_posted` returns
false instead of an error. -/
theorem is_posted_fail_open_witness :
    is_postedCaught ⟨fun _ _ => .error (), fun _ => .error (), .error ()⟩
      "https://www.couponami.com/go/abc" none none = false :=
  is_posted_fail_open.1 ⟨fun _ _ => .error (), fun _ => .error (), .error ()⟩
    "https://www.couponami.com/go/abc" none none () rfl

/-- Witness for C4 (amended): a 22-character title contained in a
25-character one is caught after recording. -/
theorem title_fuzzy_match_witness :
    is_posted
      (mark_posted [] "abcdefghijklmnopqrstuvwxy" "https://www.couponami.com/x"
        none none 0)
      "" none (some "abcdefghijklmnopqrstuv") = true :=
  title_fuzzy_match "abcdefghijklmnopqrstuvwxy" "abcdefghijklmnopqrstuv"
    "https://www.couponami.com/x" none none 0 (Or.inr ⟨by decide, by decide⟩)

theorem countLt_append (a b : String) : countLt (a ++ b) = countLt a + countLt b := by
  unfold countLt
  rw [String.data_append, List.count_append]

theorem countLt_escChunk (c : Char) : (escChunk c).count '<' = 0 := by
  unfold escChunk
  split
  · decide
  · split
    · decide
    · split
      · decide
      · split
        · decide
        · split
          · decide
          · rename_i h1 h2 h3 h4 h5
            simp [List.count_cons, h2]

theorem countLt_escape (s : String) : countLt (htmlEscape s) = 0 := by
  unfold countLt htmlEscape
  show (s.data.flatMap escChunk).count '<' = 0
  induction s.data with
  | nil => rfl
  | cons c t ih => simp [List.flatMap_cons, List.count_append, countLt_escChunk, ih]

theorem countLt_detail (label : String) (v : Option String)
    (hl : countLt label = 2) :
    countLt (detailLine label v) = if pyTruthy v then 2 else 0 := by
  unfold detailLine
  by_cases hv : pyTruthy v
  · rw [if_pos hv, if_pos hv, countLt_append, countLt_append, countLt_escape, hl]
    rfl
  · rw [if_neg hv, if_neg hv]
    rfl

/-- Counterexample to C9 as stated: the listing/destination URL placed in
the message body is *not* escaped — a scraped URL containing `<img`
appears verbatim in the produced message, while its escaped form would
contain no such substring (lines 680-683 interpolate the raw URL). -/
theorem url_not_escaped_counterexample :
    strIn "<img" (formatCourseMessage rawUrlCourse) = true ∧
    strIn "<img" (htmlEscape "https://u/<img src=x>") = false :=
  ⟨by decide, by decide⟩

/-- C9 (amended): the escaped fields (title, language, publisher, rate,
enroll) contribute no markup-opening `<` whatever their scraped content:
the `<` count of the message is exactly the 8 fixed template tags, plus 2
per detail line shown, plus the `<` count of the URL, which alone is
embedded unescaped. -/
theorem formatted_message_lt_count (c : Course) :
    countLt (formatCourseMessage c)
      = 8 + 2 * ((if pyTruthy c.language then 1 else 0)
          + (if pyTruthy c.publisher then 1 else 0)
          + (if pyTruthy c.rate then 1 else 0)
          + (if pyTruthy c.enroll then 1 else 0))
        + countLt (shownUrl c) := by
  have hd1 : countLt (detailLine "🌐 <b>Language:</b> " c.language)
      = if pyTruthy c.language then 2 else 0 := countLt_detail _ _ (by decide)
  have hd2 : countLt (detailLine "👤 <b>Publisher:</b> " c.publisher)
      = if pyTruthy c.publisher then 2 else 0 := countLt_detail _ _ (by decide)
  have hd3 : countLt (detailLine "⭐ <b>Rate:</b> " c.rate)
      = if pyTruthy c.rate then 2 else 0 := countLt_detail _ _ (by decide)
  have hd4 : countLt (detailLine "👥 <b>Enroll:</b> " c.enroll)
      = if pyTruthy c.enroll then 2 else 0 := countLt_detail _ _ (by decide)
  have e1 : countLt "🎓 <b>" = 1 := by decide
  have e2 : countLt "</b>\n\n📋 <b>Course Details:</b>\n" = 3 := by decide
  have e3 : countLt "\n" = 0 := by decide
  have e4 : countLt "🔗 <b>Get Course:</b> " = 2 := by decide
  have e5 : countLt "\n⏰ <i>Limited time offer! Enroll now before it expires.</i>\n"
      = 2 := by decide
  have e6 : countLt "\n#DIU #Udemy #FreeCourse" = 0 := by decide
  unfold formatCourseMessage
  simp only [countLt_append]
  rw [hd1, hd2, hd3, hd4, countLt_escape, e1, e2, e3, e4, e5, e6]
  by_cases h1 : pyTruthy c.language <;> by_cases h2 : pyTruthy c.publisher <;>
    by_cases h3 : pyTruthy c.rate <;> by_cases h4 : pyTruthy c.enroll <;>
    simp [h1, h2, h3, h4] <;> omega

theorem passTrace_record_mem (pub exc : Course → Bool) (cs : List Course)
    (c : Course) (h : PassEvent.record c ∈ passTrace pub exc cs) :
    pub c = true ∧ exc c = false := by
  induction cs with
  | nil => simp [passTrace] at h
  | cons d rest ih =>
    unfold passTrace at h
    by_cases hd : exc d
    · rw [if_pos hd] at h
      exact ih h
    · rw [if_neg hd] at h
      by_cases hp : pub d
      · rw [if_pos hp] at h
        rcases List.mem_cons.mp h with h1 | h2
        · exact PassEvent.noConfusion h1
        · rcases List.mem_cons.mp h2 with h3 | h4
          · obtain rfl : c = d := by injection h3
            exact ⟨hp, by simpa using hd⟩
          · exact ih h4
      · rw [if_neg hp] at h
        rcases List.mem_cons.mp h with h1 | h2
        · exact PassEvent.noConfusion h1
        · exact ih h2

theorem passTrace_record_after_publish (pub exc : Course → Bool) (cs : List Course) :
    ∀ (n : Nat) (c : Course), (passTrace pub exc cs)[n]? = some (.record c) →
      ∃ m, n = m + 1 ∧ (passTrace pub exc cs)[m]? = some (.publish c true) := by
  induction cs with
  | nil => intro n c h; simp [passTrace] at h
  | cons d rest ih =>
    intro n c h
    unfold passTrace at h ⊢
    by_cases hd : exc d
    · rw [if_pos hd] at h ⊢
      exact ih n c h
    · rw [if_neg hd] at h ⊢
      by_cases hp : pub d
      · rw [if_pos hp] at h ⊢
        match n with
        | 0 => rw [List.getElem?_cons_zero] at h; exact PassEvent.noConfusion (Option.some.inj h)
        | 1 =>
          rw [List.getElem?_cons_succ, List.getElem?_cons_zero] at h
          obtain rfl : c = d := by
            have := Option.some.inj h
            injection this.symm
          exact ⟨0, rfl, by rw [List.getElem?_cons_zero]⟩
        | (m + 2) =>
          rw [List.getElem?_cons_succ, List.getElem?_cons_succ] at h
          obtain ⟨k, hk, hkp⟩ := ih m c h
          exact ⟨k + 2, by omega,
            by rw [List.getElem?_cons_succ, List.getElem?_cons_succ]; exact hkp⟩
      · rw [if_neg hp] at h ⊢
        match n with
        | 0 => rw [List.getElem?_cons_zero] at h; exact PassEvent.noConfusion (Option.some.inj h)
        | (m + 1) =>
          rw [List.getElem?_cons_succ] at h
          obtain ⟨k, hk, hkp⟩ := ih m c h
          exact ⟨k + 1, by omega, by rw [List.getElem?_cons_succ]; exact hkp⟩

theorem pubEvents_publish (c : Course) (b : Bool) (T : List PassEvent) :
    pubEvents (.publish c b :: T) = .publish c b :: pubEvents T := rfl

theorem pubEvents_record (c : Course) (T : List PassEvent) :
    pubEvents (.record c :: T) = pubEvents T := rfl

theorem passTrace_publish_order (pub exc : Course → Bool) (cs : List Course) :
    pubEvents (passTrace pub exc cs)
      = (cs.filter fun c => !exc c).map fun c => PassEvent.publish c (pub c) := by
  induction cs with
  | nil => rfl
  | cons d rest ih =>
    unfold passTrace
    rw [List.filter_cons]
    by_cases hd : exc d
    · have hd2 : exc d = true := hd
      rw [if_pos hd]
      simp only [hd2, Bool.not_true]
      rw [if_neg (by simp)]
      exact ih
    · have hd' : exc d = false := by simpa using hd
      rw [if_neg hd]
      simp only [hd', Bool.not_false]
      rw [if_true, List.map_cons]
      by_cases hp : pub d
      · rw [if_pos hp, pubEvents_publish, pubEvents_record, ih, hp]
      · have hp' : pub d = false := by simpa using hp
        rw [if_neg hp, pubEvents_publish, ih, hp']

/-- C7: within one pass, `mark_posted` for a candidate happens only after
a successful `post_course` of that same candidate (immediately after it in
the event trace), never for a failed publish; and the publish attempts
occur exactly in the order of the (deduplicated, enriched) candidate
list. -/
theorem records_follow_publishes (db : List PostedRecord)
    (res : Course → Option String) (pub exc : Course → Bool)
    (courses : List Course) :
    (∀ c, PassEvent.record c ∈ processTrace db res pub exc courses →
        pub c = true ∧ exc c = false) ∧
    (∀ (n : Nat) (c : Course),
        (processTrace db res pub exc courses)[n]? = some (.record c) →
        ∃ m, n = m + 1 ∧
          (processTrace db res pub exc courses)[m]? = some (.publish c true)) ∧
    pubEvents (processTrace db res pub exc courses)
      = ((processNew db res courses).filter fun c => !exc c).map
          fun c => PassEvent.publish c (pub c) :=
  ⟨fun c => passTrace_record_mem pub exc (processNew db res courses) c,
   passTrace_record_after_publish pub exc (processNew db res courses),
   passTrace_publish_order pub exc (processNew db res courses)⟩

/-- Witness for C7: on a one-candidate pass whose publish succeeds, the
record event present in the trace certifies a successful publish. -/
theorem records_follow_publishes_witness :
    alwaysTrue cSample = true ∧ alwaysFalse cSample = false :=
  (records_follow_publishes [] (fun _ => none) alwaysTrue alwaysFalse [cSample]).1
    cSample (by decide)
